import Mathlib

/-!
Shallow embedding of the sandstorm-app-market repository:

* `src/app/lib/collections/genres.js` — the `Genres` query facade over the
  `Apps` collection (categories plus computed "extra genres");
* the Slingshot `imageUploader` directive (upload authorization and storage
  key generation).

JavaScript objects are modelled as association lists from string keys to a
`Value` type; JS `undefined`/`null` arguments are modelled with `Option`.
Underscore's `_.extend(dst, src)` is modelled by `extend` (last write wins,
a falsy `src` is skipped, mirroring underscore's `if (source)` guard).
In-place mutation of the caller's selector object (the category branch of
`findIn`/`findOneIn` extends the caller's object directly) is modelled by
explicit state passing: each operation also returns the value held by the
caller's selector object after the call.
-/

/-- A JavaScript value as used by the genres module: strings, numbers,
booleans, arrays of id/category strings (the only arrays this module
manipulates), `null`/`undefined`, and plain objects. -/
inductive Value where
  | str : String → Value
  | num : Int → Value
  | bool : Bool → Value
  | arr : List String → Value
  | vnull : Value
  | obj : List (String × Value) → Value

/-- A JavaScript object: an ordered association list of fields.  A real JS
object never holds the same key twice; theorems that need this carry an
explicit `Nodup` hypothesis on the key list. -/
abbrev Obj := List (String × Value)

/-- Property read `o[k]`: the first binding of `k` (in a duplicate-free
object, the only one). -/
def objGet (o : Obj) (k : String) : Option Value :=
  (o.find? (fun p => p.1 == k)).map (fun p => p.2)

/-- Property write `o[k] = v`: overwrite the binding in place if present,
append otherwise (JS assignment keeps the key's original position). -/
def objSet (o : Obj) (k : String) (v : Value) : Obj :=
  if o.any (fun p => p.1 == k) then
    o.map (fun p => if p.1 == k then (k, v) else p)
  else
    o ++ [(k, v)]

/-- `_.extend(dst, src)` : copy every enumerable property of `src` onto
`dst`, in `src`'s key order. -/
def extend (dst : Obj) (src : Obj) : Obj :=
  src.foldl (fun acc p => objSet acc p.1 p.2) dst

/-- `_.extend` skips a falsy source (`null`/`undefined`): underscore's
`if (source)` guard. -/
def extendOpt (dst : Obj) (src : Option Obj) : Obj :=
  match src with
  | none => dst
  | some s => extend dst s

mutual

/-- Structural equality test on JS values (the fragment of equality the
module's queries exercise). -/
def Value.beq : Value → Value → Bool
  | .str a, .str b => a == b
  | .num a, .num b => a == b
  | .bool a, .bool b => a == b
  | .arr a, .arr b => a == b
  | .vnull, .vnull => true
  | .obj a, .obj b => beqFields a b
  | _, _ => false

/-- Field-list equality for `Value.beq`. -/
def beqFields : List (String × Value) → List (String × Value) → Bool
  | [], [] => true
  | (k1, v1) :: t1, (k2, v2) :: t2 => k1 == k2 && Value.beq v1 v2 && beqFields t1 t2
  | _, _ => false

end

instance : BEq Value := ⟨Value.beq⟩

/- ------------------------------------------------------------------ -/
/- Data model: users, apps, categories, and the ambient environment.    -/
/- ------------------------------------------------------------------ -/

/-- `appDetails.version` for an installed app: the installed version
descriptor; only its `dateTime` timestamp is read by the module. -/
structure InstalledVersionInfo where
  dateTime : Int
deriving DecidableEq, Repr

/-- The per-app value of a user's `installedApps` mapping. -/
structure InstalledAppDetails where
  version : InstalledVersionInfo
deriving DecidableEq, Repr

/-- A `Meteor.users` document: an id and the `installedApps` mapping from
app id to installed-version details (a JS object, hence an ordered,
duplicate-key-free association list). -/
structure User where
  _id : String
  installedApps : List (String × InstalledAppDetails)
deriving DecidableEq, Repr

/-- An `Apps` collection document.  Its queryable fields (`_id`, `author`,
`categories`, `installCount`, ...) live in `doc`.  `latestDateTime` is
modelled from the spec: `latestVersion()` is defined elsewhere in the
repository (not under `src/`); per the spec it is a "derived version
descriptor with a timestamp", and only `latestVersion().dateTime` is read,
so the document carries that timestamp directly. -/
structure AppDoc where
  doc : Obj
  latestDateTime : Int

/-- A `Categories` collection document: the module reads only `name`. -/
structure Category where
  name : String
deriving DecidableEq, Repr

/-- The invocation context (`this` inside genre selector functions and the
`context` argument of `findIn`/`findOneIn`): an optional user id and an
optional author id (for "Apps By Author"). -/
structure Context where
  userId : Option String
  authorId : Option String

/-- The ambient environment the JS code senses implicitly: whether we run
in a client/browser context (`Meteor.isClient` / `typeof window`), the
client session's user id (`Meteor.userId()`), the `Meteor.users`, `Apps`
and `Categories` collections, the client-local persisted installed-app id
list (`amplify.store('sandstormInstalledApps')`), and the route parameter
`authorId` (`FlowRouter.getParam('authorId')`). -/
structure Env where
  isClient : Bool
  clientUserId : Option String
  users : List User
  apps : List AppDoc
  categories : List Category
  sandstormInstalledApps : List String
  routeAuthorId : Option String

/-- `getUser` utility: `userId = userId || this.userId` — the genre
selector functions are applied with no arguments, so the `userId`
parameter is always `undefined` and resolution starts from `this.userId`;
on the client it falls back to `Meteor.userId()`; finally
`Meteor.users.findOne(userId)` (a falsy selector matches nothing). -/
def getUser (env : Env) (ctx : Context) : Option User :=
  let userId := ctx.userId
  let userId := if env.isClient then
      (match userId with
       | some u => some u
       | none => env.clientUserId)
    else userId
  match userId with
  | none => none
  | some uid => env.users.find? (fun u => u._id == uid)

/-- `Apps.findOne(appId)`: a string selector is shorthand for `_id`
equality. -/
def appsFindOne (env : Env) (appId : String) : Option AppDoc :=
  env.apps.find? (fun a => objGet a.doc "_id" == some (Value.str appId))

/- ------------------------------------------------------------------ -/
/- Minimongo selector matching (the fragment this module exercises).    -/
/- ------------------------------------------------------------------ -/

/-- Does the document field value `docVal` (`none` when the field is
absent) satisfy the selector condition `cond`?  The fragment used by this
module: an `{$in: [...]}` membership test over id strings, a literal
scalar compared for equality, and a literal matched against an array field
by containment (how `{categories: name}` matches an app's category list). -/
def valueMatches (docVal : Option Value) (cond : Value) : Bool :=
  match cond with
  | Value.obj fields =>
    match objGet fields "$in" with
    | some (Value.arr ids) =>
      match docVal with
      | some (Value.str s) => ids.contains s
      | _ => false
    | _ =>
      match docVal with
      | some dv => Value.beq dv cond
      | none => false
  | Value.str s =>
    match docVal with
    | some (Value.arr xs) => xs.contains s
    | some dv => Value.beq dv (Value.str s)
    | none => false
  | c =>
    match docVal with
    | some dv => Value.beq dv c
    | none => false

/-- A document matches a selector when every selector field matches. -/
def matchesSelector (sel : Obj) (doc : Obj) : Bool :=
  sel.all (fun p => valueMatches (objGet doc p.1) p.2)

/-- A query as handed to the collection: the selector actually passed to
`Apps.find`/`Apps.findOne` (`none` models a falsy — `null`/`undefined` —
selector, which Minimongo compiles to a never-matching filter), and the
options actually passed (`none` models an absent options argument). -/
structure Query where
  selector : Option Obj
  options : Option Obj

/-- Execute a `find` query: the documents matching the selector, in
collection order (sort/limit options are not modelled; no claim depends on
them re-ordering results). A falsy selector matches nothing. -/
def runQuery (env : Env) (q : Query) : List AppDoc :=
  match q.selector with
  | none => []
  | some sel => env.apps.filter (fun a => matchesSelector sel a.doc)

/-- Execute a `findOne` query: the first matching document or none. -/
def runQueryOne (env : Env) (q : Query) : Option AppDoc :=
  (runQuery env q).head?

/- ------------------------------------------------------------------ -/
/- The extraGenres array.                                               -/
/- ------------------------------------------------------------------ -/

/-- An extra genre's `selector` or `options` field: "an object or a
function returning an object".  A function senses the ambient environment
and is applied with `this = context`; it may return `null` (`none`),
meaning no user context was available. -/
inductive GenreField where
  | static : Obj → GenreField
  | fn : (Env → Context → Option Obj) → GenreField

/-- An entry of the `extraGenres` array. `options` is `none` for the
entries that declare no `options` field at all (`undefined`, which
`_.extend` skips exactly like `null`). -/
structure ExtraGenre where
  name : String
  selector : GenreField
  options : Option GenreField
  priority : Int
  showSummary : Bool

/-- The id list the `'Installed'` selector accumulates: start from `[]`,
concatenate the client-local persisted list when in a browser context,
then concatenate the keys of the resolved user's `installedApps`. -/
def installedAppIds (env : Env) (ctx : Context) : List String :=
  let user := getUser env ctx
  let allInstalledApps : List String := []
  let allInstalledApps := if env.isClient then
      allInstalledApps ++ env.sandstormInstalledApps
    else allInstalledApps
  match user with
  | some u => allInstalledApps ++ u.installedApps.map Prod.fst
  | none => allInstalledApps

/-- The `'Installed'` genre's selector function:
`{_id: {$in: allInstalledApps}}`. -/
def installedSelector (env : Env) (ctx : Context) : Option Obj :=
  some [("_id", Value.obj [("$in", Value.arr (installedAppIds env ctx))])]

/-- The `_.reduce` of the `'Updates Available'` selector: for each
installed app, fetch the catalog entity; push the app id when the
installed version's timestamp is strictly older than the entity's latest
version timestamp. -/
def updatesAvailableIds (env : Env) (u : User) : List String :=
  u.installedApps.foldl
    (fun idList p =>
      match appsFindOne env p.1 with
      | some current =>
        if p.2.version.dateTime < current.latestDateTime then idList ++ [p.1] else idList
      | none => idList)
    []

/-- The `'Updates Available'` genre's selector function: `null` when no
user resolves, else `{_id: {$in: updatesAvailableIds}}`. -/
def updatesAvailableSelector (env : Env) (ctx : Context) : Option Obj :=
  match getUser env ctx with
  | none => none
  | some u => some [("_id", Value.obj [("$in", Value.arr (updatesAvailableIds env u))])]

/-- The `_.reduce` of the `'No Updates'` selector: push the app id when
the installed version's timestamp is equal to or newer than the entity's
latest version timestamp. -/
def noUpdatesIds (env : Env) (u : User) : List String :=
  u.installedApps.foldl
    (fun idList p =>
      match appsFindOne env p.1 with
      | some current =>
        if p.2.version.dateTime ≥ current.latestDateTime then idList ++ [p.1] else idList
      | none => idList)
    []

/-- The `'No Updates'` genre's selector function. -/
def noUpdatesSelector (env : Env) (ctx : Context) : Option Obj :=
  match getUser env ctx with
  | none => none
  | some u => some [("_id", Value.obj [("$in", Value.arr (noUpdatesIds env u))])]

/-- The `'Apps By Me'` genre's selector function: `null` when no user
resolves, else `{author: user._id}`. -/
def appsByMeSelector (env : Env) (ctx : Context) : Option Obj :=
  match getUser env ctx with
  | none => none
  | some user => some [("author", Value.str user._id)]

/-- The `'Apps By Author'` genre's selector function:
`{author: this.authorId || FlowRouter.getParam('authorId')}` (the field is
`undefined` when neither source supplies an id). -/
def appsByAuthorSelector (env : Env) (ctx : Context) : Option Obj :=
  some [("author",
    match ctx.authorId with
    | some a => Value.str a
    | none =>
      match env.routeAuthorId with
      | some a => Value.str a
      | none => Value.vnull)]

/-- The `extraGenres` array, in declaration order. -/
def extraGenres : List ExtraGenre := [
  { name := "All",
    selector := GenreField.static [],
    options := some (GenreField.static []),
    priority := 1, showSummary := false },
  { name := "Popular",
    selector := GenreField.static [],
    options := some (GenreField.static [("sort", Value.obj [("installCount", Value.num (-1))])]),
    priority := 0, showSummary := true },
  { name := "New",
    selector := GenreField.static [],
    options := some (GenreField.static [("sort", Value.obj [("createdAt", Value.num (-1))])]),
    priority := 1, showSummary := false },
  { name := "New & Updated",
    selector := GenreField.static [],
    options := some (GenreField.static [("sort", Value.obj [("lastUpdated", Value.num (-1))])]),
    priority := 0, showSummary := true },
  { name := "This Week",
    selector := GenreField.static [],
    options := some (GenreField.static [("sort", Value.obj [("installCountThisWeek", Value.num (-1))])]),
    priority := 0, showSummary := false },
  { name := "Installed",
    selector := GenreField.fn installedSelector,
    options := some (GenreField.static []),
    priority := 2, showSummary := false },
  { name := "Updates Available",
    selector := GenreField.fn updatesAvailableSelector,
    options := none,
    priority := 0, showSummary := false },
  { name := "No Updates",
    selector := GenreField.fn noUpdatesSelector,
    options := none,
    priority := 0, showSummary := false },
  { name := "Apps By Me",
    selector := GenreField.fn appsByMeSelector,
    options := none,
    priority := 0, showSummary := false },
  { name := "Apps By Author",
    selector := GenreField.fn appsByAuthorSelector,
    options := none,
    priority := 0, showSummary := false }
]

/- ------------------------------------------------------------------ -/
/- The Genres facade.                                                   -/
/- ------------------------------------------------------------------ -/

/-- The `_.isFunction` dispatch inside `invokeGenreFunctions`: a static
object is used as-is, a function is applied with `this = context` (and
therefore no `userId` argument). -/
def resolveGenreField (env : Env) (ctx : Context) : GenreField → Option Obj
  | GenreField.static o => some o
  | GenreField.fn f => f env ctx

/-- Resolve an extra genre's `options` field, which may be absent
(`undefined`) altogether. -/
def resolveGenreOptions (env : Env) (ctx : Context) : Option GenreField → Option Obj
  | none => none
  | some gf => resolveGenreField env ctx gf

/-- `invokeGenreFunctions(extraGenre, origSelector, origOptions, context)`:
resolve the genre's `selector`/`options`, then return
`{selector: _.extend({}, origSelector, eGenSelector),
  options: _.extend({}, origOptions, eGenOptions)}`.
A function result of `null` — and an absent `options` field — is skipped
by `_.extend`, leaving a plain copy of the caller's object. -/
def invokeGenreFunctions (env : Env) (extraGenre : ExtraGenre)
    (origSelector origOptions : Obj) (ctx : Context) : Obj × Obj :=
  let eGenSelector := resolveGenreField env ctx extraGenre.selector
  let eGenOptions := resolveGenreOptions env ctx extraGenre.options
  (extendOpt (extend [] origSelector) eGenSelector,
   extendOpt (extend [] origOptions) eGenOptions)

/-- Result of `Genres.findIn`: the query executed against `Apps`, and —
state passing for the JS mutation — the value held by the caller's
selector object after the call (`none` when the caller passed no
selector, so there was no caller object to mutate). -/
structure FindInResult where
  query : Query
  callerSelector : Option Obj

/-- `Genres.findIn(name, selector, options, context)`.
`thisSelector = selector || {}` aliases the caller's object when one was
passed; the category branch runs `_.extend(thisSelector, {categories:
category.name})` — mutating the caller's object in place — and then
`Apps.find(thisSelector, options)` with the caller's raw `options`.  The
extra-genre branch merges into a fresh object, leaving the caller's
selector untouched.  An unknown name runs `Apps.find(null)`. -/
def Genres.findIn (env : Env) (name : String) (selector options : Option Obj)
    (ctx : Context) : FindInResult :=
  let thisSelector := selector.getD []
  let theseOptions := options.getD []
  match env.categories.find? (fun c => c.name == name) with
  | some category =>
    let mutated := extend thisSelector [("categories", Value.str category.name)]
    { query := { selector := some mutated, options := options },
      callerSelector := selector.map (fun _ => mutated) }
  | none =>
    match extraGenres.find? (fun g => g.name == name) with
    | some extraGenre =>
      let params := invokeGenreFunctions env extraGenre thisSelector theseOptions ctx
      { query := { selector := some params.1, options := some params.2 },
        callerSelector := selector }
    | none =>
      { query := { selector := none, options := none },
        callerSelector := selector }

/-- Result of `Genres.findOneIn`: the query executed (`none` when the
unknown-name branch returned without querying), the document found, and
the caller's selector object after the call. -/
structure FindOneInResult where
  query : Option Query
  result : Option AppDoc
  callerSelector : Option Obj

/-- `Genres.findOneIn(name, selector, options, context)` — as `findIn`
but via `Apps.findOne`; the category branch passes `theseOptions` (the
defaulted options), and an unknown name returns `undefined` without
querying. -/
def Genres.findOneIn (env : Env) (name : String) (selector options : Option Obj)
    (ctx : Context) : FindOneInResult :=
  let thisSelector := selector.getD []
  let theseOptions := options.getD []
  match env.categories.find? (fun c => c.name == name) with
  | some category =>
    let mutated := extend thisSelector [("categories", Value.str category.name)]
    let q : Query := { selector := some mutated, options := some theseOptions }
    { query := some q, result := runQueryOne env q,
      callerSelector := selector.map (fun _ => mutated) }
  | none =>
    match extraGenres.find? (fun g => g.name == name) with
    | some extraGenre =>
      let params := invokeGenreFunctions env extraGenre thisSelector theseOptions ctx
      let q : Query := { selector := some params.1, options := some params.2 }
      { query := some q, result := runQueryOne env q,
        callerSelector := selector }
    | none =>
      { query := none, result := none, callerSelector := selector }

/-- A genre descriptor as returned by `getAll`/`getOne`: either an extra
genre or a category document. -/
inductive Genre where
  | extra : ExtraGenre → Genre
  | cat : Category → Genre

/-- A genre's name. -/
def Genre.name : Genre → String
  | Genre.extra g => g.name
  | Genre.cat c => c.name

/-- The comparable own properties of a genre descriptor, for `_.where`
pattern matching (the function-valued `selector`/`options` fields cannot
be matched by a value pattern and no caller does so). -/
def Genre.attrs : Genre → Obj
  | Genre.extra g =>
    [("name", Value.str g.name), ("priority", Value.num g.priority),
     ("showSummary", Value.bool g.showSummary)]
  | Genre.cat c => [("name", Value.str c.name)]

/-- The options object of `Genres.getAll`: an optional `where` equality
pattern, an optional `filter` predicate, and an optional `iteratee` sort
key (`where` is a Lean keyword, hence the field name `whereAttrs`). -/
structure GetAllOptions where
  whereAttrs : Option Obj
  filter : Option (Genre → Bool)
  iteratee : Option (Genre → Int)

/-- The empty options object (`options = options || {}`). -/
def GetAllOptions.empty : GetAllOptions :=
  { whereAttrs := none, filter := none, iteratee := none }

/-- `_.where(list, pattern)`: keep the elements whose properties all equal
the pattern's. -/
def whereMatch (pattern : Obj) (g : Genre) : Bool :=
  pattern.all (fun p => objGet (Genre.attrs g) p.1 == some p.2)

/-- `Genres.getAll(options)`:
`extraGenres.concat(Categories.find().fetch())`, narrowed by `where` and
`filter` when given, then `_.sortBy(genres, iteratee)` when an iteratee is
given (a stable sort by the key function), else returned in insertion
order. -/
def Genres.getAll (env : Env) (options : GetAllOptions) : List Genre :=
  let genres := (extraGenres.map Genre.extra) ++ (env.categories.map Genre.cat)
  let genres := match options.whereAttrs with
    | some pattern => genres.filter (whereMatch pattern)
    | none => genres
  let genres := match options.filter with
    | some p => genres.filter p
    | none => genres
  match options.iteratee with
  | some f => genres.insertionSort (fun a b => f a ≤ f b)
  | none => genres

/-- `Genres.getOne(name)`:
`Categories.findOne({name: name}) || _.findWhere(extraGenres, {name: name})`. -/
def Genres.getOne (env : Env) (name : String) : Option Genre :=
  match env.categories.find? (fun c => c.name == name) with
  | some c => some (Genre.cat c)
  | none => (extraGenres.find? (fun g => g.name == name)).map Genre.extra

/- ------------------------------------------------------------------ -/
/- The Slingshot `imageUploader` directive (upload configuration file). -/
/- ------------------------------------------------------------------ -/

/-- A `Meteor.Error(error, reason)`: a named error with a human-readable
message. -/
structure MeteorError where
  error : String
  reason : String
deriving DecidableEq, Repr

/-- The ambient identity of the entity initiating an upload
(`this.userId`): `none` when not logged in. -/
structure UploadContext where
  userId : Option String
deriving DecidableEq, Repr

/-- The directive's `authorize` hook: deny uploads if the user is not
logged in, by throwing `Meteor.Error("Login Required", message)`;
otherwise return `true`. -/
def imageUploaderAuthorize (ctx : UploadContext) : Except MeteorError Bool :=
  match ctx.userId with
  | none =>
    let message := "Please login before posting files"
    Except.error { error := "Login Required", reason := message }
  | some _ => Except.ok true

/-- The directive's `key` hook:
`'images/' + this.userId + '_' + new Date().valueOf() + '_' + file.name`.
`nowValueOf` is the epoch-milliseconds clock reading. -/
def imageUploaderKey (userId : String) (nowValueOf : Nat) (fileName : String) : String :=
  "images/" ++ userId ++ "_" ++ toString nowValueOf ++ "_" ++ fileName

/-- Modelled from the spec: the Slingshot upload flow itself is not under
`src/` (only the directive configuration is).  Per the spec, the service
"requires the initiating identity to be authenticated (else rejects with a
'login required' error before upload starts)": the directive's `authorize`
hook runs before any data transfer, and only when it passes is the
directive's `key` hook invoked to produce the storage key. -/
def requestUpload (ctx : UploadContext) (nowValueOf : Nat) (fileName : String) :
    Except MeteorError String :=
  match imageUploaderAuthorize ctx with
  | Except.error e => Except.error e
  | Except.ok _ =>
    match ctx.userId with
    | some u => Except.ok (imageUploaderKey u nowValueOf fileName)
    | none => Except.error { error := "Login Required", reason := "Please login before posting files" }

/- ------------------------------------------------------------------ -/
/- Boolean step conditions of the update-comparison reduces.            -/
/- ------------------------------------------------------------------ -/

/-- The per-app condition of the `'Updates Available'` reduce: the
catalog entity exists and the installed timestamp is strictly older. -/
def updatesAvailableCond (env : Env) (p : String × InstalledAppDetails) : Bool :=
  match appsFindOne env p.1 with
  | some current => p.2.version.dateTime < current.latestDateTime
  | none => false

/-- The per-app condition of the `'No Updates'` reduce: the catalog
entity exists and the installed timestamp is equal-or-newer. -/
def noUpdatesCond (env : Env) (p : String × InstalledAppDetails) : Bool :=
  match appsFindOne env p.1 with
  | some current => p.2.version.dateTime ≥ current.latestDateTime
  | none => false

/- ------------------------------------------------------------------ -/
/- Concrete fixtures used by the witness theorems.                      -/
/- ------------------------------------------------------------------ -/

/-- A category named `Games`. -/
def catGames : Category := { name := "Games" }

/-- App `a1`, authored by `u1`, latest version at timestamp 9. -/
def appA : AppDoc :=
  { doc := [("_id", Value.str "a1"), ("author", Value.str "u1")], latestDateTime := 9 }

/-- App `a2`, authored by `u2`, latest version at timestamp 9. -/
def appB : AppDoc :=
  { doc := [("_id", Value.str "a2"), ("author", Value.str "u2")], latestDateTime := 9 }

/-- App `a3`, authored by `u2`, latest version at timestamp 2. -/
def appC : AppDoc :=
  { doc := [("_id", Value.str "a3"), ("author", Value.str "u2")], latestDateTime := 2 }

/-- User `u1` with `a1` installed at timestamp 5 (older than latest 9),
`a2` at 9 (equal to latest) and `a3` at 3 (newer than latest 2). -/
def userU1 : User :=
  { _id := "u1",
    installedApps :=
      [("a1", { version := { dateTime := 5 } }),
       ("a2", { version := { dateTime := 9 } }),
       ("a3", { version := { dateTime := 3 } })] }

/-- A server-side environment with one user, three apps and one category. -/
def envW : Env :=
  { isClient := false, clientUserId := none, users := [userU1],
    apps := [appA, appB, appC], categories := [catGames],
    sandstormInstalledApps := [], routeAuthorId := none }

/-- A server-side environment with no users and two apps by different
authors. -/
def envNoUser : Env :=
  { isClient := false, clientUserId := none, users := [],
    apps := [appA, appB], categories := [],
    sandstormInstalledApps := [], routeAuthorId := none }

/-- An invocation context carrying no user and no author. -/
def ctxNone : Context := { userId := none, authorId := none }

/-- An invocation context resolving to user `u1`. -/
def ctxU1 : Context := { userId := some "u1", authorId := none }

/-- Display-priority key function, as a `getAll` iteratee. -/
def genrePriority : Genre → Int
  | Genre.extra g => g.priority
  | Genre.cat _ => 0

/- ------------------------------------------------------------------ -/
/- Helper lemmas on object operations.                                  -/
/- ------------------------------------------------------------------ -/

theorem objGet_nil (k : String) : objGet [] k = none := rfl

theorem objGet_cons (k1 : String) (v1 : Value) (t : Obj) (k : String) :
    objGet ((k1, v1) :: t) k = if k1 = k then some v1 else objGet t k := by
  by_cases h : k1 = k <;> simp [objGet, List.find?_cons, h]

theorem objGet_eq_none_of_not_mem (s : Obj) (k : String) (h : k ∉ s.map Prod.fst) :
    objGet s k = none := by
  induction s with
  | nil => rfl
  | cons p t ih =>
    obtain ⟨k1, v1⟩ := p
    simp only [List.map_cons, List.mem_cons, not_or] at h
    rw [objGet_cons, if_neg (fun hk => h.1 hk.symm)]
    exact ih h.2

theorem objGet_map_replace (t : Obj) (k2 : String) (v : Value) (k : String) :
    objGet (t.map (fun p => if p.1 == k2 then (k2, v) else p)) k =
      if k2 = k then (if t.any (fun p => p.1 == k2) then some v else none)
      else objGet t k := by
  induction t with
  | nil => by_cases h : k2 = k <;> simp [objGet_nil, h]
  | cons p t ih =>
    obtain ⟨k1, v1⟩ := p
    simp only [List.map_cons, List.any_cons]
    by_cases h1 : k1 = k2
    · subst h1
      simp only [beq_self_eq_true, if_true, Bool.true_or]
      rw [objGet_cons, objGet_cons]
      by_cases h2 : k1 = k
      · simp [h2]
      · rw [if_neg h2, if_neg h2, if_neg h2, ih, if_neg h2]
    · have hb : (k1 == k2) = false := beq_eq_false_iff_ne.mpr h1
      simp only [hb, Bool.false_or, Bool.false_eq_true, if_false]
      rw [objGet_cons, objGet_cons]
      by_cases hk1 : k1 = k
      · have h2 : ¬ k2 = k := fun hh => h1 (hk1.trans hh.symm)
        simp [hk1, h2]
      · rw [if_neg hk1, if_neg hk1, ih]

theorem objGet_append_single (o : Obj) (k2 : String) (v : Value) (k : String) :
    objGet (o ++ [(k2, v)]) k = (objGet o k).or (if k2 = k then some v else none) := by
  induction o with
  | nil =>
    rw [List.nil_append, objGet_cons, objGet_nil]
    by_cases h : k2 = k <;> simp [h, Option.or, objGet_nil]
  | cons p t ih =>
    obtain ⟨k1, v1⟩ := p
    rw [List.cons_append, objGet_cons, objGet_cons]
    by_cases hk1 : k1 = k
    · simp [hk1, Option.or]
    · rw [if_neg hk1, if_neg hk1, ih]

theorem objGet_objSet_self (o : Obj) (k : String) (v : Value) :
    objGet (objSet o k v) k = some v := by
  unfold objSet
  by_cases h : o.any (fun p => p.1 == k)
  · rw [if_pos h, objGet_map_replace, if_pos rfl, if_pos h]
  · rw [if_neg h, objGet_append_single, if_pos rfl]
    have hnone : objGet o k = none := by
      apply objGet_eq_none_of_not_mem
      simp only [List.any_eq_true, beq_iff_eq, not_exists, not_and] at h
      simp only [List.mem_map, not_exists, not_and]
      intro p hp hfst
      exact h p hp hfst
    rw [hnone]
    rfl

theorem objGet_objSet_ne (o : Obj) (k k2 : String) (v : Value) (h : k2 ≠ k) :
    objGet (objSet o k2 v) k = objGet o k := by
  unfold objSet
  by_cases ha : o.any (fun p => p.1 == k2)
  · rw [if_pos ha, objGet_map_replace, if_neg h]
  · rw [if_neg ha, objGet_append_single, if_neg h]
    cases objGet o k <;> rfl

theorem extend_single (d : Obj) (k : String) (v : Value) :
    extend d [(k, v)] = objSet d k v := rfl

theorem objGet_extend (d s : Obj) (k : String) (h : (s.map Prod.fst).Nodup) :
    objGet (extend d s) k = (objGet s k).or (objGet d k) := by
  induction s generalizing d with
  | nil => simp [extend, objGet_nil, Option.or]
  | cons p t ih =>
    obtain ⟨k1, v1⟩ := p
    simp only [List.map_cons, List.nodup_cons] at h
    have step : extend d ((k1, v1) :: t) = extend (objSet d k1 v1) t := rfl
    rw [step, ih (objSet d k1 v1) h.2, objGet_cons]
    by_cases hk : k1 = k
    · subst hk
      rw [objGet_eq_none_of_not_mem t k1 h.1, objGet_objSet_self]
      simp [Option.or]
    · rw [objGet_objSet_ne d k k1 v1 hk, if_neg hk]

theorem objGet_extend_nil (s : Obj) (k : String) (h : (s.map Prod.fst).Nodup) :
    objGet (extend [] s) k = objGet s k := by
  rw [objGet_extend [] s k h]
  cases objGet s k <;> simp [Option.or, objGet_nil]

/- ------------------------------------------------------------------ -/
/- Helper lemmas on the update-comparison reduces and on matching.      -/
/- ------------------------------------------------------------------ -/

theorem mem_foldl_pushIf {β : Type} (cond : String × β → Bool) (l : List (String × β)) :
    ∀ (acc : List String) (x : String),
      (x ∈ l.foldl (fun idList p => if cond p then idList ++ [p.1] else idList) acc) ↔
        (x ∈ acc ∨ ∃ d, (x, d) ∈ l ∧ cond (x, d)) := by
  induction l with
  | nil => simp
  | cons p t ih =>
    intro acc x
    obtain ⟨a, b⟩ := p
    simp only [List.foldl_cons]
    by_cases h : cond (a, b)
    · rw [if_pos h, ih]
      constructor
      · rintro (hx | ⟨d, hd, hc⟩)
        · rcases List.mem_append.mp hx with h1 | h1
          · exact Or.inl h1
          · simp only [List.mem_singleton] at h1
            subst h1
            exact Or.inr ⟨b, List.mem_cons_self _ _, h⟩
        · exact Or.inr ⟨d, List.mem_cons_of_mem _ hd, hc⟩
      · rintro (hx | ⟨d, hd, hc⟩)
        · exact Or.inl (List.mem_append.mpr (Or.inl hx))
        · rcases List.mem_cons.mp hd with h1 | h1
          · have hxa : x = a := congrArg Prod.fst h1
            exact Or.inl (List.mem_append.mpr (Or.inr (by simp [hxa])))
          · exact Or.inr ⟨d, h1, hc⟩
    · rw [if_neg h, ih]
      constructor
      · rintro (hx | ⟨d, hd, hc⟩)
        · exact Or.inl hx
        · exact Or.inr ⟨d, List.mem_cons_of_mem _ hd, hc⟩
      · rintro (hx | ⟨d, hd, hc⟩)
        · exact Or.inl hx
        · rcases List.mem_cons.mp hd with h1 | h1
          · exact absurd (h1 ▸ hc) h
          · exact Or.inr ⟨d, h1, hc⟩

theorem assoc_value_unique {β : Type} :
    ∀ (l : List (String × β)), (l.map Prod.fst).Nodup →
      ∀ {a : String} {b c : β}, (a, b) ∈ l → (a, c) ∈ l → b = c := by
  intro l
  induction l with
  | nil => simp
  | cons p t ih =>
    intro h a b c hb hc
    simp only [List.map_cons, List.nodup_cons] at h
    rcases List.mem_cons.mp hb with h1 | h1 <;> rcases List.mem_cons.mp hc with h2 | h2
    · rw [← h1] at h2
      exact (Prod.mk.injEq _ _ _ _ ▸ h2).2.symm
    · exfalso
      apply h.1
      rw [← h1]
      exact List.mem_map.mpr ⟨(a, c), h2, rfl⟩
    · exfalso
      apply h.1
      rw [← h2]
      exact List.mem_map.mpr ⟨(a, b), h1, rfl⟩
    · exact ih h.2 h1 h2

theorem updatesAvailableIds_eq_pushIf (env : Env) (u : User) :
    updatesAvailableIds env u =
      u.installedApps.foldl
        (fun idList p => if updatesAvailableCond env p then idList ++ [p.1] else idList) [] := by
  unfold updatesAvailableIds
  congr 1
  funext idList p
  unfold updatesAvailableCond
  cases h : appsFindOne env p.1 <;> simp

theorem noUpdatesIds_eq_pushIf (env : Env) (u : User) :
    noUpdatesIds env u =
      u.installedApps.foldl
        (fun idList p => if noUpdatesCond env p then idList ++ [p.1] else idList) [] := by
  unfold noUpdatesIds
  congr 1
  funext idList p
  unfold noUpdatesCond
  cases h : appsFindOne env p.1 <;> simp

theorem matchesSelector_empty_in (doc : Obj) :
    matchesSelector [("_id", Value.obj [("$in", Value.arr [])])] doc = false := by
  have hv : valueMatches (objGet doc "_id") (Value.obj [("$in", Value.arr [])]) = false := by
    cases h : objGet doc "_id" with
    | none => rfl
    | some v => cases v <;> rfl
  unfold matchesSelector
  simp only [List.all_cons, List.all_nil, Bool.and_true]
  exact hv

/-- C9: an authenticated upload by user `u` of file `n` at epoch millis `t`
produces exactly the key `images/u_t_n` (in particular
`images/u1_1000_photo.png` for the spec's example), and an unauthenticated
attempt raises the named error `"Login Required"` with the human-readable
message `"Please login before posting files"`, producing no key. -/
theorem imageUploader_key_and_auth :
    (∀ (u : String) (t : Nat) (n : String),
      requestUpload { userId := some u } t n =
        Except.ok ("images/" ++ u ++ "_" ++ toString t ++ "_" ++ n)) ∧
    imageUploaderKey "u1" 1000 "photo.png" = "images/u1_1000_photo.png" ∧
    (∀ (t : Nat) (n : String),
      requestUpload { userId := none } t n =
        Except.error { error := "Login Required", reason := "Please login before posting files" }) ∧
    imageUploaderAuthorize { userId := none } =
      Except.error { error := "Login Required", reason := "Please login before posting files" } := by
  refine ⟨fun u t n => rfl, by decide, fun t n => rfl, rfl⟩

/- ------------------------------------------------------------------ -/
/- Claim theorems.                                                      -/
/- ------------------------------------------------------------------ -/

/-- C2: for every registered category (the one `Categories.findOne`
resolves for `name`), `findIn` queries the catalog with the caller's
selector whose `categories` field is set — overwriting any caller-supplied
value — to the category's name (every other key is untouched), and the
options passed to the catalog are exactly the caller's raw options. -/
theorem findIn_category_filter (env : Env) (name : String) (sel opts : Option Obj)
    (ctx : Context) (c : Category)
    (h : env.categories.find? (fun cc => cc.name == name) = some c) :
    (Genres.findIn env name sel opts ctx).query.options = opts ∧
    (Genres.findIn env name sel opts ctx).query.selector =
      some (objSet (sel.getD []) "categories" (Value.str c.name)) ∧
    objGet (objSet (sel.getD []) "categories" (Value.str c.name)) "categories" =
      some (Value.str c.name) ∧
    (∀ k, k ≠ "categories" →
      objGet (objSet (sel.getD []) "categories" (Value.str c.name)) k =
        objGet (sel.getD []) k) := by
  unfold Genres.findIn
  rw [h]
  exact ⟨rfl, rfl, objGet_objSet_self _ _ _,
    fun k hk => objGet_objSet_ne _ _ _ _ (fun hh => hk hh.symm)⟩

/-- Witness for C2 at a concrete input: category `Games`, caller selector
carrying both a conflicting `categories` value and an unrelated key. -/
theorem findIn_category_filter_witness :
    (Genres.findIn envW "Games"
        (some [("categories", Value.str "Wrong"), ("k", Value.num 7)]) none ctxNone).query.options
        = none ∧
    (Genres.findIn envW "Games"
        (some [("categories", Value.str "Wrong"), ("k", Value.num 7)]) none ctxNone).query.selector
        = some [("categories", Value.str "Games"), ("k", Value.num 7)] := by
  have h := findIn_category_filter envW "Games"
    (some [("categories", Value.str "Wrong"), ("k", Value.num 7)]) none ctxNone catGames rfl
  exact ⟨h.1, h.2.1.trans rfl⟩

/-- C10: `findIn` and `findOneIn` mutate a caller-supplied selector object
in place in the category branch — afterwards the caller's object is its
former value with `categories` set to the category's name — while the
extra-genre and unknown-name branches leave the caller's object unchanged
(the merge happens into a fresh empty object). -/
theorem findIn_mutates_caller_selector (env : Env) (name : String) (s0 : Obj)
    (opts : Option Obj) (ctx : Context) :
    (∀ c : Category, env.categories.find? (fun cc => cc.name == name) = some c →
      (Genres.findIn env name (some s0) opts ctx).callerSelector =
        some (objSet s0 "categories" (Value.str c.name)) ∧
      (Genres.findOneIn env name (some s0) opts ctx).callerSelector =
        some (objSet s0 "categories" (Value.str c.name)) ∧
      objGet (objSet s0 "categories" (Value.str c.name)) "categories" =
        some (Value.str c.name)) ∧
    (env.categories.find? (fun cc => cc.name == name) = none →
      (Genres.findIn env name (some s0) opts ctx).callerSelector = some s0 ∧
      (Genres.findOneIn env name (some s0) opts ctx).callerSelector = some s0) := by
  constructor
  · intro c h
    unfold Genres.findIn Genres.findOneIn
    rw [h]
    exact ⟨rfl, rfl, objGet_objSet_self _ _ _⟩
  · intro h
    unfold Genres.findIn Genres.findOneIn
    rw [h]
    cases extraGenres.find? (fun g => g.name == name) <;> exact ⟨rfl, rfl⟩

/-- Witness for C10: the category branch rewrites the caller's object; the
extra-genre branch (name `Popular`, not a category of `envNoUser`) leaves
it alone. -/
theorem findIn_mutates_caller_selector_witness :
    (Genres.findIn envW "Games" (some [("k", Value.num 7)]) none ctxNone).callerSelector =
      some [("k", Value.num 7), ("categories", Value.str "Games")] ∧
    (Genres.findIn envNoUser "Popular" (some [("k", Value.num 7)]) none ctxNone).callerSelector =
      some [("k", Value.num 7)] := by
  have h1 := (findIn_mutates_caller_selector envW "Games" [("k", Value.num 7)] none ctxNone).1
    catGames rfl
  have h2 := (findIn_mutates_caller_selector envNoUser "Popular" [("k", Value.num 7)] none
    ctxNone).2 rfl
  exact ⟨h1.1.trans rfl, h2.1⟩

/-- C5: a name matching neither a category nor an extra genre makes
`findIn` execute `Apps.find(null)` — a never-matching filter yielding an
empty result set, whatever the caller's selector and options — and makes
`findOneIn` return `undefined` without querying at all. -/
theorem findIn_unknown_name (env : Env) (name : String) (sel opts : Option Obj) (ctx : Context)
    (hc : env.categories.find? (fun c => c.name == name) = none)
    (hg : extraGenres.find? (fun g => g.name == name) = none) :
    (Genres.findIn env name sel opts ctx).query.selector = none ∧
    runQuery env (Genres.findIn env name sel opts ctx).query = [] ∧
    (Genres.findOneIn env name sel opts ctx).query = none ∧
    (Genres.findOneIn env name sel opts ctx).result = none := by
  unfold Genres.findIn Genres.findOneIn
  rw [hc, hg]
  exact ⟨rfl, rfl, rfl, rfl⟩

/-- Witness for C5 at the unknown name `Nonexistent` against the populated
environment `envW`, with a non-trivial caller selector. -/
theorem findIn_unknown_name_witness :
    (Genres.findIn envW "Nonexistent" (some [("a", Value.num 1)]) none ctxNone).query.selector
      = none ∧
    runQuery envW (Genres.findIn envW "Nonexistent" (some [("a", Value.num 1)]) none
      ctxNone).query = [] ∧
    (Genres.findOneIn envW "Nonexistent" (some [("a", Value.num 1)]) none ctxNone).query
      = none ∧
    (Genres.findOneIn envW "Nonexistent" (some [("a", Value.num 1)]) none ctxNone).result
      = none :=
  findIn_unknown_name envW "Nonexistent" (some [("a", Value.num 1)]) none ctxNone rfl rfl

/-- C4: the `findIn`/`findOneIn` merge is a shallow merge in which every
key of the genre's resolved selector (resp. options) wins over the same
key of the caller's selector (resp. options), keys only the caller has
are preserved (the `Option.or` equation states both at once), and the
genre's value replaces the caller's wholesale.  In particular
`findIn("Popular", {}, {sort: {foo: 1}})` queries with
`sort = {installCount: -1}`. -/
theorem genre_merge_precedence :
    (∀ (env : Env) (g : ExtraGenre) (origSel origOpts : Obj) (ctx : Context) (k : String),
      (origSel.map Prod.fst).Nodup → (origOpts.map Prod.fst).Nodup →
      (∀ es, resolveGenreField env ctx g.selector = some es → (es.map Prod.fst).Nodup →
        objGet (invokeGenreFunctions env g origSel origOpts ctx).1 k =
          (objGet es k).or (objGet origSel k)) ∧
      (∀ eo, resolveGenreOptions env ctx g.options = some eo → (eo.map Prod.fst).Nodup →
        objGet (invokeGenreFunctions env g origSel origOpts ctx).2 k =
          (objGet eo k).or (objGet origOpts k))) ∧
    (∀ (env : Env) (ctx : Context),
      env.categories.find? (fun c => c.name == "Popular") = none →
      (Genres.findIn env "Popular" (some [])
          (some [("sort", Value.obj [("foo", Value.num 1)])]) ctx).query.options =
        some [("sort", Value.obj [("installCount", Value.num (-1))])]) := by
  constructor
  · intro env g origSel origOpts ctx k hs ho
    constructor
    · intro es hes hnes
      unfold invokeGenreFunctions
      rw [hes]
      show objGet (extend (extend [] origSel) es) k = (objGet es k).or (objGet origSel k)
      rw [objGet_extend _ _ _ hnes, objGet_extend_nil _ _ hs]
    · intro eo heo hneo
      unfold invokeGenreFunctions
      rw [heo]
      show objGet (extend (extend [] origOpts) eo) k = (objGet eo k).or (objGet origOpts k)
      rw [objGet_extend _ _ _ hneo, objGet_extend_nil _ _ ho]
  · intro env ctx h
    unfold Genres.findIn
    rw [h]
    rfl

/-- Witness for C4: merging the Popular genre's options over a caller
`sort` replaces the caller's nested sort object wholesale. -/
theorem genre_merge_precedence_witness :
    objGet (invokeGenreFunctions envW
      { name := "Popular", selector := GenreField.static [],
        options := some (GenreField.static
          [("sort", Value.obj [("installCount", Value.num (-1))])]),
        priority := 0, showSummary := true }
      [] [("sort", Value.obj [("foo", Value.num 1)])] ctxNone).2 "sort" =
      some (Value.obj [("installCount", Value.num (-1))]) := by
  have h := ((genre_merge_precedence.1 envW
    { name := "Popular", selector := GenreField.static [],
      options := some (GenreField.static
        [("sort", Value.obj [("installCount", Value.num (-1))])]),
      priority := 0, showSummary := true }
    [] [("sort", Value.obj [("foo", Value.num 1)])] ctxNone "sort"
    (by simp) (by simp)).2
    [("sort", Value.obj [("installCount", Value.num (-1))])] rfl (by simp))
  exact h.trans rfl

/-- C7: `getAll()` with no options returns the extra-genre descriptors
first, in declaration order, then the categories in catalog order, with no
sort applied; with an `iteratee` the result (after any `where`/`filter`
narrowing) is a permutation of the narrowed list that is sorted by the key
function (`insertionSort` is a stable sort, matching `_.sortBy`). -/
theorem getAll_declaration_order (env : Env) :
    Genres.getAll env GetAllOptions.empty =
      (extraGenres.map Genre.extra) ++ (env.categories.map Genre.cat) ∧
    (∀ (opts : GetAllOptions) (f : Genre → Int), opts.iteratee = some f →
      (Genres.getAll env opts).Perm
        (Genres.getAll env
          { whereAttrs := opts.whereAttrs, filter := opts.filter, iteratee := none }) ∧
      List.Sorted (fun a b => f a ≤ f b) (Genres.getAll env opts)) := by
  constructor
  · rfl
  · intro opts f hf
    unfold Genres.getAll
    rw [hf]
    haveI t1 : IsTotal Genre (fun a b => f a ≤ f b) := ⟨fun a b => le_total (f a) (f b)⟩
    haveI t2 : IsTrans Genre (fun a b => f a ≤ f b) := ⟨fun a b c h1 h2 => le_trans h1 h2⟩
    exact ⟨List.perm_insertionSort _ _, List.sorted_insertionSort _ _⟩

/-- Witness for C7: sorting all genres of `envW` by display priority is a
permutation of the unsorted enumeration, and is sorted. -/
theorem getAll_declaration_order_witness :
    (Genres.getAll envW
      { whereAttrs := none, filter := none, iteratee := some genrePriority }).Perm
      (Genres.getAll envW { whereAttrs := none, filter := none, iteratee := none }) ∧
    List.Sorted (fun a b => genrePriority a ≤ genrePriority b)
      (Genres.getAll envW
        { whereAttrs := none, filter := none, iteratee := some genrePriority }) :=
  (getAll_declaration_order envW).2
    { whereAttrs := none, filter := none, iteratee := some genrePriority } genrePriority rfl

/-- C8: `getOne` returns the category of the given name when one exists
(so a category always shadows an extra genre of the same name); only when
no category matches does it return the extra genre; when neither matches
it returns none. -/
theorem getOne_prefers_category (env : Env) (n : String) :
    (∀ c, env.categories.find? (fun c => c.name == n) = some c →
      Genres.getOne env n = some (Genre.cat c)) ∧
    ((∃ c ∈ env.categories, c.name = n) →
      ∃ c ∈ env.categories, c.name = n ∧ Genres.getOne env n = some (Genre.cat c)) ∧
    (env.categories.find? (fun c => c.name == n) = none →
      (∀ g, extraGenres.find? (fun g => g.name == n) = some g →
        Genres.getOne env n = some (Genre.extra g)) ∧
      (extraGenres.find? (fun g => g.name == n) = none → Genres.getOne env n = none) ∧
      ((¬ ∃ g ∈ extraGenres, g.name = n) → Genres.getOne env n = none)) := by
  refine ⟨?_, ?_, ?_⟩
  · intro c h
    unfold Genres.getOne
    rw [h]
  · rintro ⟨c, hc, hn⟩
    have hsome : (env.categories.find? (fun c => c.name == n)).isSome := by
      rw [List.find?_isSome]
      exact ⟨c, hc, by simp [hn]⟩
    obtain ⟨c2, h2⟩ := Option.isSome_iff_exists.mp hsome
    refine ⟨c2, List.mem_of_find?_eq_some h2, by simpa using List.find?_some h2, ?_⟩
    unfold Genres.getOne
    rw [h2]
  · intro h
    refine ⟨?_, ?_, ?_⟩
    · intro g hg
      unfold Genres.getOne
      rw [h, hg]
      rfl
    · intro hg
      unfold Genres.getOne
      rw [h, hg]
      rfl
    · intro hne
      have hg : extraGenres.find? (fun g => g.name == n) = none := by
        rw [List.find?_eq_none]
        intro g hgmem
        simp only [beq_iff_eq]
        intro hname
        exact hne ⟨g, hgmem, by simpa using hname⟩
      unfold Genres.getOne
      rw [h, hg]
      rfl

/-- Witness for C8: `envW` has a category `Games`; an unknown name yields
none; adding a category named `Popular` (colliding with the extra genre)
makes `getOne` return the category, not the extra genre. -/
theorem getOne_prefers_category_witness :
    Genres.getOne envW "Games" = some (Genre.cat catGames) ∧
    Genres.getOne envW "DoesNotExist" = none ∧
    Genres.getOne
      { envW with categories := [{ name := "Popular" }] } "Popular" =
      some (Genre.cat { name := "Popular" }) := by
  refine ⟨(getOne_prefers_category envW "Games").1 catGames rfl, ?_, ?_⟩
  · exact (((getOne_prefers_category envW "DoesNotExist").2.2 rfl).2.1 rfl)
  · exact (getOne_prefers_category
      { envW with categories := [{ name := "Popular" }] } "Popular").1 { name := "Popular" } rfl

/-- C6: the `'Installed'` genre's id list is the union (as membership) of
the client-local persisted installed-app ids (present only in a
client/browser context) and the keys of the resolved user's
`installedApps`; with neither source — not a client, no user — the
computed selector is the empty membership filter `{_id: {$in: []}}` and
`findIn("Installed")` returns an empty result set. -/
theorem installed_genre_empty_and_union (env : Env) (ctx : Context) :
    (∀ x, x ∈ installedAppIds env ctx ↔
      ((env.isClient = true ∧ x ∈ env.sandstormInstalledApps) ∨
        (∃ u, getUser env ctx = some u ∧ x ∈ u.installedApps.map Prod.fst))) ∧
    (env.isClient = false → getUser env ctx = none →
      installedSelector env ctx = some [("_id", Value.obj [("$in", Value.arr [])])] ∧
      (env.categories.find? (fun c => c.name == "Installed") = none →
        runQuery env (Genres.findIn env "Installed" none none ctx).query = [])) := by
  have hids : ∀ hcl : Bool, env.isClient = hcl → ∀ hu, getUser env ctx = hu →
      installedAppIds env ctx =
        ((if hcl then env.sandstormInstalledApps else []) ++
          (match hu with
           | some u => u.installedApps.map Prod.fst
           | none => [])) := by
    intro hcl hhcl hu hhu
    unfold installedAppIds
    rw [hhcl, hhu]
    cases hcl <;> cases hu <;> simp
  constructor
  · intro x
    rw [hids env.isClient rfl (getUser env ctx) rfl]
    cases hcl : env.isClient <;> cases hu : getUser env ctx <;>
      simp [List.mem_append]
  · intro h1 h2
    have hsel : installedSelector env ctx =
        some [("_id", Value.obj [("$in", Value.arr [])])] := by
      unfold installedSelector
      rw [hids false h1 none h2]
      rfl
    refine ⟨hsel, ?_⟩
    intro hcat
    unfold Genres.findIn
    rw [hcat]
    have hfind : extraGenres.find? (fun g => g.name == "Installed") =
        some { name := "Installed", selector := GenreField.fn installedSelector,
               options := some (GenreField.static []),
               priority := 2, showSummary := false } := rfl
    rw [hfind]
    show runQuery env
      { selector :=
          some (extendOpt (extend [] []) (resolveGenreField env ctx
            (GenreField.fn installedSelector))),
        options := some (extendOpt (extend [] []) (resolveGenreOptions env ctx
          (some (GenreField.static [])))) } = []
    show runQuery env
      { selector := some (extendOpt [] (installedSelector env ctx)),
        options := some (extendOpt (extend [] []) (some [])) } = []
    rw [hsel]
    show env.apps.filter
      (fun a => matchesSelector (extend [] [("_id", Value.obj [("$in", Value.arr [])])]) a.doc)
      = []
    rw [List.filter_eq_nil_iff]
    intro a _
    have he : extend [] [("_id", Value.obj [("$in", Value.arr [])])] =
        [("_id", Value.obj [("$in", Value.arr [])])] := rfl
    rw [he, matchesSelector_empty_in]
    simp

/-- Witness for C6: a server-side environment with no resolvable user. -/
theorem installed_genre_empty_and_union_witness :
    installedSelector envNoUser ctxNone =
      some [("_id", Value.obj [("$in", Value.arr [])])] ∧
    runQuery envNoUser (Genres.findIn envNoUser "Installed" none none ctxNone).query = [] := by
  have h := (installed_genre_empty_and_union envNoUser ctxNone).2 rfl rfl
  exact ⟨h.1, h.2 rfl⟩

/-- C3: for a resolved user with a duplicate-free `installedApps` mapping,
an installed app id `A` whose catalog entity exists is in the
`'Updates Available'` id-membership filter exactly when the installed
timestamp is strictly older than the latest-version timestamp, and in the
`'No Updates'` filter exactly when it is equal-or-newer; an app installed
at exactly the latest timestamp is classified under `'No Updates'` and
never under `'Updates Available'`. -/
theorem updates_available_boundary (env : Env) (ctx : Context) (u : User)
    (A : String) (d : InstalledAppDetails) (app : AppDoc)
    (hu : getUser env ctx = some u)
    (hnodup : (u.installedApps.map Prod.fst).Nodup)
    (hmem : (A, d) ∈ u.installedApps)
    (happ : appsFindOne env A = some app) :
    updatesAvailableSelector env ctx =
      some [("_id", Value.obj [("$in", Value.arr (updatesAvailableIds env u))])] ∧
    noUpdatesSelector env ctx =
      some [("_id", Value.obj [("$in", Value.arr (noUpdatesIds env u))])] ∧
    (A ∈ updatesAvailableIds env u ↔ d.version.dateTime < app.latestDateTime) ∧
    (A ∈ noUpdatesIds env u ↔ app.latestDateTime ≤ d.version.dateTime) ∧
    (d.version.dateTime = app.latestDateTime →
      A ∈ noUpdatesIds env u ∧ A ∉ updatesAvailableIds env u) := by
  have hcondU : updatesAvailableCond env (A, d) =
      decide (d.version.dateTime < app.latestDateTime) := by
    unfold updatesAvailableCond
    rw [happ]
  have hcondN : noUpdatesCond env (A, d) =
      decide (app.latestDateTime ≤ d.version.dateTime) := by
    unfold noUpdatesCond
    rw [happ]
  have hmemU : A ∈ updatesAvailableIds env u ↔ d.version.dateTime < app.latestDateTime := by
    rw [updatesAvailableIds_eq_pushIf, mem_foldl_pushIf]
    constructor
    · rintro (hx | ⟨d2, hd2, hc⟩)
      · simp at hx
      · have : d2 = d := assoc_value_unique u.installedApps hnodup hd2 hmem
        subst this
        rw [hcondU] at hc
        exact of_decide_eq_true hc
    · intro hlt
      exact Or.inr ⟨d, hmem, by rw [hcondU]; exact decide_eq_true hlt⟩
  have hmemN : A ∈ noUpdatesIds env u ↔ app.latestDateTime ≤ d.version.dateTime := by
    rw [noUpdatesIds_eq_pushIf, mem_foldl_pushIf]
    constructor
    · rintro (hx | ⟨d2, hd2, hc⟩)
      · simp at hx
      · have : d2 = d := assoc_value_unique u.installedApps hnodup hd2 hmem
        subst this
        rw [hcondN] at hc
        exact of_decide_eq_true hc
    · intro hle
      exact Or.inr ⟨d, hmem, by rw [hcondN]; exact decide_eq_true hle⟩
  refine ⟨?_, ?_, hmemU, hmemN, ?_⟩
  · unfold updatesAvailableSelector
    rw [hu]
  · unfold noUpdatesSelector
    rw [hu]
  · intro heq
    refine ⟨hmemN.mpr (le_of_eq heq.symm), fun hin => ?_⟩
    exact absurd (hmemU.mp hin) (by rw [heq]; exact lt_irrefl _)

/-- Witness for C3 on `envW`/`userU1`: app `a2` is installed at exactly
its latest timestamp (9 = 9), so it is classified under `'No Updates'`
and not under `'Updates Available'`. -/
theorem updates_available_boundary_witness :
    ("a2" : String) ∈ noUpdatesIds envW userU1 ∧
    ("a2" : String) ∉ updatesAvailableIds envW userU1 := by
  have h := updates_available_boundary envW ctxU1 userU1 "a2"
    { version := { dateTime := 9 } } appB rfl (by decide) (by decide) rfl
  exact h.2.2.2.2 rfl

/-- C1 (code-bug evaluation): with no resolvable user, the `'Apps By Me'`
(and `'Updates Available'`) selector functions return the `null` sentinel —
but `invokeGenreFunctions` merges it with `_.extend({}, origSelector,
null)`, which skips a falsy source, so the resolved query is the caller's
selector alone: for an empty caller selector, `findIn` queries with `{}`
(an unrestricted scan returning every app, here apps by two different
authors) and `findOneIn` returns a document instead of none.  The
spec-required short-circuit to an empty result set does not happen. -/
theorem appsByMe_noUser_falls_through :
    appsByMeSelector envNoUser ctxNone = none ∧
    updatesAvailableSelector envNoUser ctxNone = none ∧
    (Genres.findIn envNoUser "Apps By Me" (some []) none ctxNone).query.selector = some [] ∧
    runQuery envNoUser (Genres.findIn envNoUser "Apps By Me" (some []) none ctxNone).query
      = [appA, appB] ∧
    (Genres.findOneIn envNoUser "Apps By Me" (some []) none ctxNone).result = some appA ∧
    (Genres.findIn envNoUser "Updates Available" (some []) none ctxNone).query.selector
      = some [] ∧
    runQuery envNoUser
      (Genres.findIn envNoUser "Updates Available" (some []) none ctxNone).query
      = [appA, appB] :=
  ⟨rfl, rfl, rfl, rfl, rfl, rfl, rfl⟩
